import Mathlib

/-!
Verification of the linked object family runtime of the `folo` repository.

The repository sources under verification are:
- `crates/linked_macros_impl/src/linked_object.rs` — the `linked::object`
  attribute code generator (entrypoint / core), embedded below in the
  `SynModel` section;
- `crates/linked/examples/linked_std_box.rs` — the `EventCounter` example
  (payload `local_count: usize`, shared `Arc<AtomicUsize>` global counter),
  embedded in the `EventCounterModel` section.

The runtime crate `linked` itself (the `Link`, `Family`, `linked::__private`
helpers, and the `linked::instances!` thread-local cache) is not among the
provided sources; following the specification (§2–§4.3), those parts are
modelled explicitly and every such definition carries a doc comment starting
with `Modelled from the spec:`.
-/

namespace Folo

/-- Modelled from the spec: the Family Identity record (spec §2, §3), from the
missing runtime crate `linked`. It pairs a unique identity token with the
constructor recipe, a zero-argument factory. Constructor effects (allocation of
shared cells, shared-counter updates) are modelled by threading an explicit
world state `σ`: the recipe consumes a `σ` and returns the produced payload
together with the updated world. Reference counting is not modelled (no claim
depends on it). -/
structure Family (σ α : Type) where
  token : Nat
  recipe : σ → α × σ

/-- Modelled from the spec: the hidden `Link` back-reference (spec §2, §3) of
the missing runtime crate `linked`. In the Rust runtime the link holds a
shared reference to the Family Identity record; in the model it holds the
record itself. -/
structure Link (σ α : Type) where
  fam : Family σ α

/-- An instance of a linked object type: the author-defined payload plus the
hidden Link back-reference (spec §3). -/
structure Instance (σ α : Type) where
  payload : α
  link : Link σ α

/-- Modelled from the spec: `Family::produce` of the missing runtime crate
(spec §4.1) invokes the constructor recipe once and wires the new instance's
Link to this Family Identity. -/
def Family.produce (h : Family σ α) (s : σ) : Instance σ α × σ :=
  (⟨(h.recipe s).1, ⟨h⟩⟩, (h.recipe s).2)

/-- Modelled from the spec: `Link::family` of the missing runtime crate
returns a handle sharing identity with the link; cheap and side-effect-free
(spec §4.3) — in the model it merely projects the stored record. -/
def Link.family (l : Link σ α) : Family σ α :=
  l.fam

/-- The generated `Object::family` implementation delegates to the hidden link
field (source: `linked_object.rs`, generated `fn family`). -/
def Instance.family (i : Instance σ α) : Family σ α :=
  i.link.family

/-- Modelled from the spec: `linked::__private::clone` of the missing runtime
crate, the target of the generated `Clone` impl. Spec §4.3: clone produces a
new instance in the same family by invoking the family's `produce()`, never by
field-wise duplication of the original's data. -/
def LinkedPrivate.clone (i : Instance σ α) (s : σ) : Instance σ α × σ :=
  i.family.produce s

/-- Modelled from the spec: `Family::__private_into` of the missing runtime
crate, the target of the generated `From<Family<Self>>` impl. Spec §4.3: the
consuming conversion constructs a new instance by running the constructor
recipe once and wiring its Link to the consumed handle's Family Identity. -/
def Family.privateInto (h : Family σ α) (s : σ) : Instance σ α × σ :=
  (⟨(h.recipe s).1, ⟨h⟩⟩, (h.recipe s).2)

/-- Instrumentation: the same family with its recipe wrapped to count how many
times the recipe is invoked. The world state is extended with the invocation
counter. -/
def countingFamily (h : Family σ α) : Family (Nat × σ) α :=
  ⟨h.token, fun p => ((h.recipe p.2).1, (p.1 + 1, (h.recipe p.2).2))⟩

/-- Modelled from the spec: the thread-local slot accessor `get()` of the
missing `linked::instances!` runtime (spec §4.2). For the calling thread's
slot: on first access (empty slot) it constructs an instance via `produce()`
and stores it; on every later access it returns the stored instance unchanged.
Result components: the accessed instance, the thread's slot afterwards, and
the world state afterwards. -/
def getSlot (h : Family σ α) (slot : Option (Instance σ α)) (s : σ) :
    Instance σ α × Option (Instance σ α) × σ :=
  match slot with
  | none => ((h.produce s).1, some (h.produce s).1, (h.produce s).2)
  | some i => (i, some i, s)

/-- Modelled from the spec: mutable access through the thread-local accessor
(spec §4.2, §9 open question resolved as "same stored instance, mutable
access"): a mutation performed through the reference returned by `get()`
updates the payload of the instance stored in the slot. -/
def mutateSlot (f : α → α) (slot : Option (Instance σ α)) :
    Option (Instance σ α) :=
  slot.map fun i => ⟨f i.payload, i.link⟩

/-! The `EventCounter` example, from
`crates/linked/examples/linked_std_box.rs`. `usize` is modelled as `Nat`
with explicit 64-bit saturation / wrapping where the source uses
`saturating_add` / atomic `fetch_add`. The one shared
`Arc<AtomicUsize>` cell allocated by `EventCounter::new` is the world
state `σ := Nat` (the cell's current value). -/

/-- Largest value of the 64-bit `usize` type. -/
def USIZE_MAX : Nat := 2 ^ 64 - 1

/-- Modulus of 64-bit `usize` arithmetic. -/
def USIZE_MOD : Nat := 2 ^ 64

/-- Rust `usize::saturating_add`. -/
def usizeSaturatingAdd (a b : Nat) : Nat :=
  min (a + b) USIZE_MAX

/-- Rust `AtomicUsize::fetch_add` (wrapping on overflow): returns the updated
cell value and the previous value. -/
def atomicFetchAdd (cell v : Nat) : Nat × Nat :=
  ((cell + v) % USIZE_MOD, cell)

/-- The author-defined payload of `EventCounter`: the non-shared field
`local_count: usize`. The `global_count: Arc<AtomicUsize>` field is the
shared cell, represented by the world state. -/
structure EventCounter where
  local_count : Nat

/-- Source `EventCounter::increment`: saturating-adds 1 to the non-shared
`local_count` and atomically fetch-adds 1 to the shared global counter. -/
def EventCounter.increment (c : EventCounter) (globalCell : Nat) :
    EventCounter × Nat :=
  (⟨usizeSaturatingAdd c.local_count 1⟩, (atomicFetchAdd globalCell 1).1)

/-- Source `EventCounter::new` combined with
`linked::instances!(static RECORDS_PROCESSED ...)`: the shared atomic cell
starts at 0 and the family's constructor recipe (the body of `linked::new!`)
clones the `Arc` (sharing the cell, leaving it unchanged) and zeroes
`local_count`. -/
def EventCounter.newFamily : Family Nat EventCounter :=
  ⟨0, fun cell => (⟨0⟩, cell)⟩

/-- The capability interface `CountResult` of the example
(`fn local_count(&self) -> usize; fn global_count(&self) -> usize;`), as the
exact method set available through `Box<dyn CountResult>`: reporting the
instance's own count and loading the shared cell. Nothing else is declared by
the trait. -/
structure CountResultView where
  local_count : Nat
  global_count : Nat → Nat

/-- Type erasure `Box::new(counter) : Box<dyn CountResult>` from the example:
the erased object exposes exactly the trait's two methods.
`local_count()` returns the instance's own field and `global_count()` loads
the shared cell; the hidden Link contributes to neither. -/
def eraseToCountResult (i : Instance Nat EventCounter) : CountResultView :=
  ⟨i.payload.local_count, fun cell => cell⟩

/-! Concurrent first touch of a named static handle (spec §4.2): `n` threads
race the first `H.get()`. Each thread's access has two steps: (A) pass the
exactly-once initialization barrier that lazily initializes the named handle's
Family Identity, and (B) invoke `produce()` (running the recipe once) and
store the instance in the thread's own slot. Step A is atomic per the barrier
contract; step B touches only the thread's own slot plus the instrumentation
counter. A schedule is an arbitrary list of thread ids; each occurrence of a
thread id performs that thread's next pending step. -/

/-- Modelled from the spec: shared state of the lazy-initialization protocol
of a named static handle accessed by `n` threads (spec §4.2, §9).
`fam` is the lazily initialized Family Identity token; `initCount` counts
runs of the identity initializer; `recipeCount` counts constructor-recipe
invocations; `phase t` is 0 before thread `t` has passed the barrier,
1 after the barrier but before producing, and 2 once `t` has stored its
instance; `slots t` is thread `t`'s slot (the stored instance's family
token). -/
structure InitSys (n : Nat) where
  fam : Option Nat
  initCount : Nat
  recipeCount : Nat
  phase : Fin n → Nat
  slots : Fin n → Option Nat

/-- Modelled from the spec: initial state of the protocol — nothing
initialized, no recipe run, every thread before the barrier with an empty
slot (spec §4.2). -/
def InitSys.start (n : Nat) : InitSys n :=
  ⟨none, 0, 0, fun _ => 0, fun _ => none⟩

/-- Modelled from the spec: one step of thread `t` (spec §4.2).
Phase 0: the exactly-once initialization barrier — initialize the Family
Identity only if nobody has yet. Phase 1: invoke the recipe via `produce()`
and store the instance in `t`'s own slot. Phase 2: done, no further effect. -/
def InitSys.stepThread (t : Fin n) (st : InitSys n) : InitSys n :=
  match st.phase t with
  | 0 =>
    match st.fam with
    | none =>
        { st with
            fam := some 0, initCount := st.initCount + 1,
            phase := Function.update st.phase t 1 }
    | some _ => { st with phase := Function.update st.phase t 1 }
  | 1 =>
      { st with
          recipeCount := st.recipeCount + 1,
          slots := Function.update st.slots t st.fam,
          phase := Function.update st.phase t 2 }
  | _ => st

/-- Run the protocol under an arbitrary interleaving of thread steps. -/
def InitSys.run (n : Nat) (sched : List (Fin n)) : InitSys n :=
  sched.foldl (fun st t => InitSys.stepThread t st) (InitSys.start n)

/-! The example's end-to-end scenario (`main` of `linked_std_box.rs`,
spec §8): 4 threads each call `RECORDS_PROCESSED.get()` once — producing a
fresh `EventCounter` with `local_count = 0` sharing the one global cell —
and then call `increment()` 1000 times. Increments from different threads
interleave arbitrarily; the `local_count` update touches only the calling
thread's own instance, and the `fetch_add` on the shared cell is atomic, so
an interleaving is a list of thread ids, each occurrence being one
`increment()` by that thread. -/

/-- State of the 4-thread counting scenario: each thread's own
`EventCounter` instance payload, plus the shared global cell. -/
structure Scenario where
  locals : Fin 4 → EventCounter
  cell : Nat

/-- Scenario state right after every thread's single `get()`: each thread's
slot holds the payload produced by the family's recipe from the initial
world (shared cell at 0, per `EventCounter::new`). -/
def Scenario.start : Scenario :=
  ⟨fun _ => ((EventCounter.newFamily.produce 0).1).payload, 0⟩

/-- One `increment()` by thread `t`. -/
def Scenario.step (st : Scenario) (t : Fin 4) : Scenario :=
  ⟨Function.update st.locals t ((st.locals t).increment st.cell).1,
    ((st.locals t).increment st.cell).2⟩

/-- Run the whole interleaving of increments. -/
def Scenario.run (sched : List (Fin 4)) : Scenario :=
  sched.foldl Scenario.step Scenario.start

/-! Embedding of the `linked::object` attribute code generator,
`crates/linked_macros_impl/src/linked_object.rs`. The syn AST is modelled
just deeply enough for the decisions `core` takes: the item kind, the struct's
fields (named / unnamed / unit), its identifier, and its generics with
where-clause (which `core` only splits and re-attaches, never inspects).
Token-stream details (spans, exact rendering) are abstracted as strings. -/

/-- One struct field of the syn AST: name and type, as rendered text. -/
structure FieldDef where
  fieldName : String
  fieldTy : String
  deriving DecidableEq, Repr

/-- `syn::Fields`: named fields (possibly the empty braced list), a tuple
struct's unnamed fields, or a unit struct. -/
inductive StructFields where
  | named : List FieldDef → StructFields
  | unnamed : Nat → StructFields
  | unit : StructFields
  deriving DecidableEq, Repr

/-- `syn::Generics` as the generator uses it: the parameter list and the
optional where-clause, both opaque. `split_for_impl` re-emits exactly these,
so preservation is equality of this record. -/
structure Generics where
  params : List String
  whereClause : Option String
  deriving DecidableEq, Repr

/-- `syn::ItemStruct`, restricted to what `core` reads. -/
structure ItemStruct where
  ident : String
  generics : Generics
  fields : StructFields
  deriving DecidableEq, Repr

/-- `syn::Item` as `entrypoint` matches it: a struct, or any other
successfully parsed item (enum, fn, ...), rendered as text. -/
inductive Item where
  | structItem : ItemStruct → Item
  | otherItem : String → Item
  deriving DecidableEq, Repr

/-- One generated `impl` block: the generics carried over from the struct
declaration (per `split_for_impl`), the implemented trait, and the expression
its single method delegates to. -/
structure GeneratedImpl where
  generics : Generics
  traitRef : String
  delegatesTo : String
  deriving DecidableEq, Repr

/-- The output of a successful expansion: the augmented struct item followed
by the generated impl blocks. -/
structure Generated where
  item : ItemStruct
  impls : List GeneratedImpl
  deriving DecidableEq, Repr

/-- Name of the hidden link field the generator appends. -/
def linkFieldName : String := "__private_linked_link"

/-- Type of the hidden link field the generator appends. -/
def linkFieldTy : String := "::linked::__private::Link<Self>"

/-- The hidden `#[doc(hidden)]` identity-link field pushed by `core`. -/
def linkField : FieldDef :=
  ⟨linkFieldName, linkFieldTy⟩

/-- Source `core` (`linked_object.rs` lines 30–68): requires named fields,
appends the hidden link field, and emits the three impls — `linked::Object`
(whose `family()` delegates to the link field), `Clone` (delegating to
`linked::__private::clone`), and `From<linked::Family<Self>>` (delegating to
`__private_into`) — each carrying the struct's own generics and
where-clause. -/
def core (item : ItemStruct) : Except String Generated :=
  match item.fields with
  | StructFields.named fs =>
      Except.ok
        { item :=
            { item with fields := StructFields.named (fs ++ [linkField]) }
          impls :=
            [ ⟨item.generics, "::linked::Object",
                "self.__private_linked_link.family()"⟩,
              ⟨item.generics, "Clone",
                "::linked::__private::clone(self)"⟩,
              ⟨item.generics, "::std::convert::From<::linked::Family<Self>>",
                "family.__private_into()"⟩ ] }
  | _ =>
      Except.error
        "the `linked::object` attribute must be applied to a struct with named fields"

/-- What the attribute expansion returns to the compiler: generated code, or
the original input followed by a `compile_error!` carrying the diagnostic
(source `token_stream_and_error`). -/
inductive AttrOutput where
  | generated : Generated → AttrOutput
  | compileError : String → AttrOutput
  deriving DecidableEq, Repr

/-- Source `entrypoint` (`linked_object.rs` lines 12–28): dispatches a parsed
struct to `core` and turns every other item, and every `core` failure, into a
compile-time diagnostic. (A `syn::parse2` failure takes the same `Err` path;
the model starts from a successfully parsed item.) -/
def entrypoint (input : Item) : AttrOutput :=
  match input with
  | Item.structItem s =>
      match core s with
      | Except.ok g => AttrOutput.generated g
      | Except.error e => AttrOutput.compileError e
  | Item.otherItem _ =>
      AttrOutput.compileError
        "the `linked::object` attribute must be applied to a struct"

/-- An input is accepted exactly when it is a struct with named fields. -/
def isNamedFieldsStruct : Item → Bool
  | Item.structItem s =>
      match s.fields with
      | StructFields.named _ => true
      | _ => false
  | Item.otherItem _ => false

/-- Invariant of the lazy-initialization protocol: the identity initializer
has run exactly once when the Family Identity exists and never otherwise; the
recipe has run exactly once per thread that finished (phase 2); and any thread
past the barrier implies the Family Identity exists. -/
def InitSys.Inv (st : InitSys n) : Prop :=
  st.initCount = (if st.fam = none then 0 else 1) ∧
  st.recipeCount = (Finset.univ.filter fun t => st.phase t = 2).card ∧
  ∀ t : Fin n, 1 ≤ st.phase t → st.fam ≠ none

/-- A concrete interleaving for the 4-thread counting scenario: thread 0's
1000 increments, then thread 1's, thread 2's, thread 3's. -/
def fourThousandSched : List (Fin 4) :=
  List.replicate 1000 0 ++
    (List.replicate 1000 1 ++ (List.replicate 1000 2 ++ List.replicate 1000 3))

/-! Theorems. -/

/-- C4: for every Family Handle `h`, the instance produced from `h` navigates
back to its family: `h.produce().family()` is identity-equal to `h` (here
even equal as records, hence in particular equal identity tokens), where
`family()` goes through the hidden Link; and `family()` is a pure projection
of the Link (side-effect-free: it takes and returns no world state by its
very type). -/
theorem c4_produce_family_roundtrip (h : Family σ α) (s : σ) :
    ((h.produce s).1).family = h ∧
    ((h.produce s).1).family.token = h.token ∧
    ∀ l : Link σ α, l.family = l.fam := by
  exact ⟨rfl, rfl, fun l => rfl⟩

/-- C1: `clone()` (the generated `Clone` impl's target
`linked::__private::clone`) produces its result by re-invoking the family's
`produce()` — conjunct 1 — so the clone is in the same family (conjunct 2:
`i.clone().family() = i.family()`); it never duplicates `i`'s data field-wise:
conjunct 3 shows the clone is entirely independent of `i`'s payload (replacing
the payload by any `v` leaves the clone unchanged, so mutations of one
instance's non-shared fields never reach the other, each being a separately
owned value); and conjunct 4 shows the recipe is invoked exactly once per
clone. -/
theorem c1_clone_reinvokes_produce (i : Instance σ α) (s : σ) (v : α) :
    LinkedPrivate.clone i s = (i.family).produce s ∧
    ((LinkedPrivate.clone i s).1).family = i.family ∧
    LinkedPrivate.clone ⟨v, i.link⟩ s = LinkedPrivate.clone i s ∧
    ∀ (h2 : Family σ α) (a : α) (k : Nat),
      ((LinkedPrivate.clone ⟨a, ⟨countingFamily h2⟩⟩ (k, s)).2).1 = k + 1 := by
  exact ⟨rfl, rfl, rfl, fun h2 a k => rfl⟩

/-- C8: the consuming conversion `From<Family<T>>::from` (the generated impl
delegates to `__private_into`) is equivalent to `handle.produce()`: they are
the same function of handle and world (conjunct 1); the produced instance's
Link points at the handle's Family Identity (conjunct 2); and the constructor
recipe runs exactly once per conversion (conjunct 3). -/
theorem c8_into_equiv_produce (h : Family σ α) (s : σ) :
    h.privateInto s = h.produce s ∧
    ((h.privateInto s).1).link.fam.token = h.token ∧
    ∀ k : Nat, (((countingFamily h).privateInto (k, s)).2).1 = k + 1 := by
  exact ⟨rfl, rfl, fun k => rfl⟩

/-- C10: `EventCounter::increment` is total (a Lean function) and adds 1 to
the non-shared `local_count` with saturating arithmetic: the new local count
is `min (old + 1) usize::MAX`, so at `usize::MAX` it stays `usize::MAX`
(never wraps, never panics), while the shared global atomic counter is
fetch-added by 1 (wrapping, as Rust's atomic `fetch_add` does) on every
call. -/
theorem c10_increment_saturating (c : EventCounter) (g : Nat) :
    ((c.increment g).1).local_count = min (c.local_count + 1) USIZE_MAX ∧
    (c.local_count = USIZE_MAX → ((c.increment g).1).local_count = USIZE_MAX) ∧
    (c.increment g).2 = (g + 1) % USIZE_MOD := by
  refine ⟨rfl, ?_, rfl⟩
  intro hmax
  show min (c.local_count + 1) USIZE_MAX = USIZE_MAX
  rw [hmax]
  omega

/-- C10 witness: at `local_count = usize::MAX` the local count saturates. -/
theorem c10_increment_saturating_witness :
    ((EventCounter.increment ⟨USIZE_MAX⟩ 7).1).local_count = USIZE_MAX :=
  (c10_increment_saturating ⟨USIZE_MAX⟩ 7).2.1 rfl

/-- C2: thread-local cached access for a named static handle, on one fixed
thread: the first `get()` (empty slot) constructs the instance via
`produce()` and stores it (conjunct 1); every subsequent `get()` returns the
very instance stored in the slot, leaving the world untouched — no recipe
invocation, not a fresh clone (conjunct 2); and a mutation applied through
the access returned by the first call is observed by the second call
(conjunct 3). -/
theorem c2_get_returns_same_stored_instance (h : Family σ α) (s : σ)
    (f : α → α) :
    getSlot h none s
      = ((h.produce s).1, some (h.produce s).1, (h.produce s).2) ∧
    (∀ (i : Instance σ α) (s2 : σ), getSlot h (some i) s2 = (i, some i, s2)) ∧
    (getSlot h (mutateSlot f (getSlot h none s).2.1)
        (getSlot h none s).2.2).1
      = ⟨f ((getSlot h none s).1).payload, ((getSlot h none s).1).link⟩ := by
  exact ⟨rfl, fun i s2 => rfl, rfl⟩

/-- C5: type-erasing an `EventCounter` into `Box<dyn CountResult>` exposes
only the two trait methods, and the hidden Link is unreachable through the
erased interface: the erased view depends only on the payload, never on the
Link (conjunct 1), and consequently no operation on the erased view can
recover the instance's Family Identity token — so neither `family()` nor a
family-based `clone()` can be rebuilt from the erased object (conjunct 2). -/
theorem c5_erasure_hides_family :
    (∀ i j : Instance Nat EventCounter, i.payload = j.payload →
      eraseToCountResult i = eraseToCountResult j) ∧
    ¬ ∃ g : CountResultView → Nat,
        ∀ i : Instance Nat EventCounter,
          g (eraseToCountResult i) = (i.family).token := by
  constructor
  · intro i j hp
    simp [eraseToCountResult, hp]
  · rintro ⟨g, hg⟩
    have h0 := hg ⟨⟨0⟩, ⟨⟨0, fun c => (⟨0⟩, c)⟩⟩⟩
    have h1 := hg ⟨⟨0⟩, ⟨⟨1, fun c => (⟨0⟩, c)⟩⟩⟩
    simp only [eraseToCountResult, Instance.family, Link.family] at h0 h1
    rw [h0] at h1
    exact absurd h1 (by decide)

/-- C6: on a struct with named fields, the generator succeeds and augments the
declaration with exactly one hidden identity-link field
(`__private_linked_link: ::linked::__private::Link<Self>`, appended after the
author's fields) and exactly three impls — `linked::Object` whose `family()`
delegates to the link field, `Clone` delegating to
`linked::__private::clone`, and `From<linked::Family<Self>>` delegating to
`__private_into` — and the struct's generics with their where-clause are
carried unchanged onto all three impls (and onto the struct itself). -/
theorem c6_generated_shape (item : ItemStruct) (fs : List FieldDef)
    (hnf : item.fields = StructFields.named fs) :
    ∃ g : Generated, core item = Except.ok g ∧
      g.item.ident = item.ident ∧
      g.item.generics = item.generics ∧
      g.item.fields = StructFields.named (fs ++ [linkField]) ∧
      g.impls.length = 3 ∧
      g.impls.map GeneratedImpl.generics
        = [item.generics, item.generics, item.generics] ∧
      g.impls.map GeneratedImpl.traitRef
        = ["::linked::Object", "Clone",
            "::std::convert::From<::linked::Family<Self>>"] ∧
      g.impls.map GeneratedImpl.delegatesTo
        = ["self.__private_linked_link.family()",
            "::linked::__private::clone(self)",
            "family.__private_into()"] := by
  obtain ⟨idn, gen, flds⟩ := item
  cases hnf
  exact ⟨_, rfl, rfl, rfl, rfl, rfl, rfl, rfl, rfl⟩

/-- C6 witness: the generated output for a concrete one-field generic
struct. -/
theorem c6_generated_shape_witness :
    ∃ g : Generated,
      core ⟨"Foo", ⟨["T"], some "T: Debug"⟩,
          StructFields.named [⟨"x", "usize"⟩]⟩ = Except.ok g ∧
      g.item.ident = "Foo" ∧
      g.item.generics = ⟨["T"], some "T: Debug"⟩ ∧
      g.item.fields = StructFields.named ([⟨"x", "usize"⟩] ++ [linkField]) ∧
      g.impls.length = 3 ∧
      g.impls.map GeneratedImpl.generics
        = [⟨["T"], some "T: Debug"⟩, ⟨["T"], some "T: Debug"⟩,
            ⟨["T"], some "T: Debug"⟩] ∧
      g.impls.map GeneratedImpl.traitRef
        = ["::linked::Object", "Clone",
            "::std::convert::From<::linked::Family<Self>>"] ∧
      g.impls.map GeneratedImpl.delegatesTo
        = ["self.__private_linked_link.family()",
            "::linked::__private::clone(self)",
            "family.__private_into()"] :=
  c6_generated_shape ⟨"Foo", ⟨["T"], some "T: Debug"⟩,
    StructFields.named [⟨"x", "usize"⟩]⟩ [⟨"x", "usize"⟩] rfl

/-- C7: every input that is not a struct with named fields — a non-struct
item, a tuple struct, or a unit struct — makes the attribute entrypoint
return a compile-time diagnostic (the `compile_error!` emitted via
`token_stream_and_error` from a `syn::Error`), and never the generated
linked-object runtime code. -/
theorem c7_invalid_input_is_compile_error (input : Item)
    (hbad : isNamedFieldsStruct input = false) :
    (∃ e : String, entrypoint input = AttrOutput.compileError e) ∧
    ∀ g : Generated, entrypoint input ≠ AttrOutput.generated g := by
  cases input with
  | structItem s =>
      obtain ⟨idn, gen, flds⟩ := s
      cases flds with
      | named fs => simp [isNamedFieldsStruct] at hbad
      | unnamed k =>
          exact ⟨⟨_, rfl⟩, fun g hg => by simp [entrypoint, core] at hg⟩
      | unit =>
          exact ⟨⟨_, rfl⟩, fun g hg => by simp [entrypoint, core] at hg⟩
  | otherItem t =>
      exact ⟨⟨_, rfl⟩, fun g hg => by simp [entrypoint] at hg⟩

/-- C7 witness: an enum input and a tuple-struct input each produce a
compile-time diagnostic. -/
theorem c7_invalid_input_is_compile_error_witness :
    ((∃ e : String,
        entrypoint (Item.otherItem "enum Direction")
          = AttrOutput.compileError e) ∧
      ∀ g : Generated,
        entrypoint (Item.otherItem "enum Direction")
          ≠ AttrOutput.generated g) ∧
    ((∃ e : String,
        entrypoint (Item.structItem ⟨"Foo", ⟨[], none⟩, StructFields.unnamed 2⟩)
          = AttrOutput.compileError e) ∧
      ∀ g : Generated,
        entrypoint (Item.structItem ⟨"Foo", ⟨[], none⟩, StructFields.unnamed 2⟩)
          ≠ AttrOutput.generated g) :=
  ⟨c7_invalid_input_is_compile_error (Item.otherItem "enum Direction") rfl,
    c7_invalid_input_is_compile_error
      (Item.structItem ⟨"Foo", ⟨[], none⟩, StructFields.unnamed 2⟩) rfl⟩

/-- Updating a thread's phase to a non-2 value does not change the set of
threads in phase 2 (the updated thread was not in phase 2 either). -/
theorem filter_update_ne_two (phase : Fin n → Nat) (t : Fin n) (v : Nat)
    (hv : v ≠ 2) (ht : phase t ≠ 2) :
    (Finset.univ.filter fun x => Function.update phase t v x = 2)
      = Finset.univ.filter fun x => phase x = 2 := by
  ext x
  simp only [Finset.mem_filter, Finset.mem_univ, true_and,
    Function.update_apply]
  rcases eq_or_ne x t with hx | hx
  · subst hx
    simp [hv, ht]
  · simp [hx]

/-- Moving a thread to phase 2 inserts exactly that thread into the set of
threads in phase 2. -/
theorem filter_update_two (phase : Fin n → Nat) (t : Fin n) :
    (Finset.univ.filter fun x => Function.update phase t 2 x = 2)
      = insert t (Finset.univ.filter fun x => phase x = 2) := by
  ext x
  simp only [Finset.mem_filter, Finset.mem_univ, true_and, Finset.mem_insert,
    Function.update_apply]
  rcases eq_or_ne x t with hx | hx
  · subst hx
    simp
  · simp [hx]

/-- Every single protocol step preserves the invariant. -/
theorem InitSys.inv_step (t : Fin n) (st : InitSys n) (hinv : st.Inv) :
    (InitSys.stepThread t st).Inv := by
  obtain ⟨h1, h2, h3⟩ := hinv
  unfold InitSys.stepThread
  split
  next hp0 =>
    split
    next hf =>
      refine ⟨by simp [h1, hf], ?_, fun x hx => by simp⟩
      rw [filter_update_ne_two st.phase t 1 (by decide) (by omega)]
      exact h2
    next v hf =>
      refine ⟨by simp [h1, hf], ?_, fun x hx => by simp [hf]⟩
      rw [filter_update_ne_two st.phase t 1 (by decide) (by omega)]
      exact h2
  next hp1 =>
    refine ⟨h1, ?_, fun x hx => h3 t (by omega)⟩
    have hni : t ∉ Finset.univ.filter fun x => st.phase x = 2 := by
      simp [hp1]
    rw [filter_update_two, Finset.card_insert_of_not_mem hni, h2]
  next hpa hpb =>
    exact ⟨h1, h2, h3⟩

/-- The invariant survives any interleaving of steps. -/
theorem InitSys.inv_fold (sched : List (Fin n)) (st : InitSys n)
    (hinv : st.Inv) :
    (sched.foldl (fun st t => InitSys.stepThread t st) st).Inv := by
  induction sched generalizing st with
  | nil => exact hinv
  | cons e rest ih => exact ih _ (InitSys.inv_step e st hinv)

/-- The initial protocol state satisfies the invariant. -/
theorem InitSys.inv_start (n : Nat) : (InitSys.start n).Inv := by
  refine ⟨by simp [InitSys.start], by simp [InitSys.start], ?_⟩
  intro t ht
  simp [InitSys.start] at ht

/-- C3: when `n` threads race the first access of a named static handle, then
under every interleaving of the barrier and produce steps in which all
threads complete, the constructor recipe ran exactly once per thread —
exactly `n` times in total, never more — and the Family Identity, guarded by
the exactly-once initialization barrier, was initialized exactly once
regardless of `n`. -/
theorem c3_recipe_n_times_identity_once (n : Nat) (sched : List (Fin n))
    (hn : 0 < n)
    (hdone : ∀ t : Fin n, (InitSys.run n sched).phase t = 2) :
    (InitSys.run n sched).recipeCount = n ∧
    (InitSys.run n sched).initCount = 1 := by
  simp only [InitSys.run] at hdone ⊢
  obtain ⟨h1, h2, h3⟩ :=
    InitSys.inv_fold sched (InitSys.start n) (InitSys.inv_start n)
  constructor
  · rw [h2]
    have hall :
        (Finset.univ.filter fun t =>
            (sched.foldl (fun st t => InitSys.stepThread t st)
              (InitSys.start n)).phase t = 2)
          = Finset.univ := by
      ext x
      simp [hdone]
    rw [hall, Finset.card_univ, Fintype.card_fin]
  · have hfam :
        (sched.foldl (fun st t => InitSys.stepThread t st)
          (InitSys.start n)).fam ≠ none := by
      refine h3 ⟨0, hn⟩ ?_
      have := hdone ⟨0, hn⟩
      omega
    rw [h1, if_neg hfam]

/-- C3 witness: two threads, interleaved as 0A 1A 0B 1B, both complete; the
recipe ran twice and the identity was initialized once. -/
theorem c3_recipe_n_times_identity_once_witness :
    (0 < 2 ∧ ∀ t : Fin 2, (InitSys.run 2 [0, 1, 0, 1]).phase t = 2) ∧
    ((InitSys.run 2 [0, 1, 0, 1]).recipeCount = 2 ∧
      (InitSys.run 2 [0, 1, 0, 1]).initCount = 1) :=
  ⟨⟨by decide, by decide⟩,
    c3_recipe_n_times_identity_once 2 [0, 1, 0, 1] (by decide) (by decide)⟩

/-- Saturating arithmetic composes: clamping before adding more and clamping
again is the same as clamping once at the end. -/
theorem min_min_add (b M k : Nat) : min (min b M + k) M = min (b + k) M := by
  omega

/-- After any interleaving of increments, a thread's local count is its
starting count plus its number of increments, saturated at `usize::MAX`. -/
theorem scenario_locals_fold (sched : List (Fin 4)) (st : Scenario)
    (t : Fin 4) (hb : (st.locals t).local_count ≤ USIZE_MAX) :
    ((sched.foldl Scenario.step st).locals t).local_count
      = min ((st.locals t).local_count + sched.count t) USIZE_MAX := by
  induction sched generalizing st with
  | nil =>
      simp only [List.foldl_nil, List.count_nil, Nat.add_zero]
      omega
  | cons e rest ih =>
      rw [List.foldl_cons]
      rcases eq_or_ne e t with he | he
      · subst he
        have hstep : ((Scenario.step st e).locals e).local_count
            = min ((st.locals e).local_count + 1) USIZE_MAX := by
          simp [Scenario.step, EventCounter.increment, usizeSaturatingAdd,
            Function.update_apply]
        rw [ih (Scenario.step st e) (by rw [hstep]; omega), hstep,
          min_min_add, List.count_cons_self]
        congr 1
        omega
      · have hstep : (Scenario.step st e).locals t = st.locals t := by
          simp [Scenario.step, Function.update_apply, he.symm]
        rw [ih (Scenario.step st e) (by rw [hstep]; exact hb), hstep,
          List.count_cons_of_ne he.symm]

/-- After any interleaving of increments, the shared cell holds its starting
value plus the total number of increments, modulo 64-bit wrap-around. -/
theorem scenario_cell_fold (sched : List (Fin 4)) (st : Scenario)
    (hc : st.cell < USIZE_MOD) :
    (sched.foldl Scenario.step st).cell
      = (st.cell + sched.length) % USIZE_MOD := by
  induction sched generalizing st with
  | nil =>
      simp [Nat.mod_eq_of_lt hc]
  | cons e rest ih =>
      have hstep : (Scenario.step st e).cell = (st.cell + 1) % USIZE_MOD := rfl
      have hlt : (Scenario.step st e).cell < USIZE_MOD := by
        rw [hstep]
        exact Nat.mod_lt _ (by decide)
      rw [List.foldl_cons, ih (Scenario.step st e) hlt, hstep,
        Nat.mod_add_mod, List.length_cons]
      congr 1
      omega

/-- The length of a schedule over four threads is the sum of the four
per-thread increment counts. -/
theorem length_eq_sum_count (sched : List (Fin 4)) :
    sched.length = ∑ t : Fin 4, sched.count t := by
  induction sched with
  | nil => simp
  | cons e rest ih =>
      simp [List.count_cons, Finset.sum_add_distrib, ← ih, List.length_cons]

/-- C9: in the example scenario — a counter family whose constructor captures
the shared atomically incremented cell, four threads each obtaining their own
instance once via `get()` (local count starting at the recipe's 0) and then
incrementing 1000 times, under any interleaving of the increments — after all
threads finish, every thread's local count is 1000 and the shared global
counter is 4000. -/
theorem c9_four_threads_four_thousand (sched : List (Fin 4))
    (hcount : ∀ t : Fin 4, sched.count t = 1000) :
    (∀ t : Fin 4,
      ((Scenario.run sched).locals t).local_count = 1000) ∧
    (Scenario.run sched).cell = 4000 := by
  have hlen : sched.length = 4000 := by
    rw [length_eq_sum_count]
    simp [hcount]
  constructor
  · intro t
    have h0 : ((Scenario.start).locals t).local_count = 0 := rfl
    have hf := scenario_locals_fold sched Scenario.start t
      (by rw [h0]; exact Nat.zero_le _)
    simp only [Scenario.run]
    rw [hf, h0, hcount t]
    decide
  · have hf := scenario_cell_fold sched Scenario.start (by decide)
    simp only [Scenario.run]
    rw [hf, hlen]
    decide

/-- C9 witness: the concrete interleaving running each thread's 1000
increments in thread order satisfies the per-thread count hypothesis and the
scenario's conclusion. -/
theorem c9_four_threads_four_thousand_witness :
    (∀ t : Fin 4, fourThousandSched.count t = 1000) ∧
    ((∀ t : Fin 4,
        ((Scenario.run fourThousandSched).locals t).local_count = 1000) ∧
      (Scenario.run fourThousandSched).cell = 4000) := by
  have hcount : ∀ t : Fin 4, fourThousandSched.count t = 1000 := by
    intro t
    unfold fourThousandSched
    rw [List.count_append, List.count_append, List.count_append,
      List.count_replicate, List.count_replicate, List.count_replicate,
      List.count_replicate]
    fin_cases t <;> decide
  exact ⟨hcount, c9_four_threads_four_thousand fourThousandSched hcount⟩

end Folo
